import Mathlib

/-!
# TimeSheets-Backend: shallow embedding and verification

A shallow embedding of the timesheet lifecycle and weekly-submission
workflow of the TimeSheets-Backend Django application, together with
theorems settling the specification claims against it.

Conventions of the embedding:
* Dates are `Nat` day indices; day `0` is a Monday, so `weekday d = d % 7`
  with `0` = Monday, matching Python's `date.weekday()`.
* `hours_worked` is a `DecimalField(max_digits=5, decimal_places=2)`;
  we represent its value in hundredths of an hour (centi-hours), so the
  validators `MinValueValidator(0.1)` / `MaxValueValidator(24.0)` become
  the bounds `10` and `2400`.
* The timesheet store (the database table) is a `List Entry`; views that
  mutate it return the result value paired with the new store.
* `timesheets/utils.py` (week utilities and the week validator) and the
  current `timesheets/models.py` members `status`, `submitted_at`,
  `submit` are referenced by `views.py` and by migration
  `0002_add_draft_status` but their defining code is not present in the
  snapshot; those definitions are modelled from the spec and are marked
  `Modelled from the spec:` in their doc comments.
-/

/-- Timesheet status: the `status` CharField added by migration
`0002_add_draft_status`, choices `draft` / `submitted`. -/
inductive Status where
  | draft
  | submitted
deriving DecidableEq, Repr

/-- One row of the timesheets table.  Mirrors `timesheets/models.py`
`Timesheet` (with the `status` / `submitted_at` columns from migration
`0002_add_draft_status`).  The denormalized display-name columns and the
audit timestamps are not modelled: no claim mentions them. -/
structure Entry where
  id : Nat
  employee : Nat
  project : Nat
  activityType : String
  date : Nat
  /-- hours worked, in centi-hours (hundredths of an hour). -/
  hoursWorked : Nat
  description : Option String
  status : Status
  submittedAt : Option Nat
deriving DecidableEq, Repr

/-- The part of `employees/models.py` `Employee` that the timesheet core
reads. -/
structure EmployeeRec where
  id : Nat
  isActive : Bool
deriving DecidableEq, Repr

/-- The part of the `Project` model the timesheet core reads: `status`
and `get_activity_types()` (the project's allowed activity set). -/
structure ProjectRec where
  id : Nat
  status : String
  activityTypes : List String
deriving DecidableEq, Repr

/-- Read-only environment of a request: the employee and project tables
plus the clock (`date.today()` as a day index, `timezone.now()` as an
abstract timestamp). -/
structure Env where
  employees : List EmployeeRec
  projects : List ProjectRec
  today : Nat
  now : Nat
deriving Repr

/-- `Employee.objects.get(id=i)` as a partial lookup. -/
def getEmployee (env : Env) (i : Nat) : Option EmployeeRec :=
  env.employees.find? (fun r => r.id == i)

/-- `Project.objects.get(id=i)` as a partial lookup. -/
def getProject (env : Env) (i : Nat) : Option ProjectRec :=
  env.projects.find? (fun r => r.id == i)

/-- `MinValueValidator(0.1)` on `hours_worked`, in centi-hours. -/
def minValueOk (h : Nat) : Bool := 10 ≤ h

/-- `MaxValueValidator(24.0)` on `hours_worked`, in centi-hours. -/
def maxValueOk (h : Nat) : Bool := h ≤ 2400

/-- The `hours_worked` field validation of `timesheets/models.py`
(lines 14-18): both range validators must pass.  (The
`max_digits=5, decimal_places=2` digit bound `h ≤ 99999` is subsumed by
`MaxValueValidator(24.0)` and omitted.) -/
def hours_worked_valid (h : Nat) : Bool := minValueOk h && maxValueOk h

/-- `Timesheet.clean` of `timesheets/models.py` (lines 46-67), in source
order: future-date check, activity-type check, active-employee check,
active-project check.  A missing referenced record is treated as its
failing case (`clean` dereferences `self.employee` / `self.project`,
which exist for any saved row).  Returns the first `ValidationError`
message raised, or `.ok`. -/
def timesheet_clean (env : Env) (e : Entry) : Except String Unit :=
  if e.date > env.today then
    .error "Date cannot be in the future."
  else
    match getProject env e.project with
    | none => .error "Project not found"
    | some proj =>
      if proj.activityTypes ≠ [] && !(proj.activityTypes.contains e.activityType) then
        .error "Activity type is not valid for project"
      else
        match getEmployee env e.employee with
        | none => .error "Employee not found"
        | some emp =>
          if !emp.isActive then
            .error "Cannot create timesheet for inactive employee."
          else if proj.status ≠ "active" then
            .error "Cannot create timesheet for inactive project."
          else
            .ok ()

/-- `Timesheet.full_clean` as invoked by `Timesheet.save`
(`timesheets/models.py` lines 69-78): Django runs the field validators
(here the `hours_worked` range) and then `clean`.  The
`validate_unique` step is modelled separately in the store-level insert
(`insertEntry`). -/
def timesheet_full_clean (env : Env) (e : Entry) : Except String Unit :=
  if !hours_worked_valid e.hoursWorked then
    .error "hours_worked out of range"
  else
    timesheet_clean env e

example : timesheet_full_clean
    { employees := [⟨1, true⟩], projects := [⟨1, "active", []⟩],
      today := 100, now := 0 }
    { id := 1, employee := 1, project := 1, activityType := "dev",
      date := 99, hoursWorked := 800, description := none,
      status := .draft, submittedAt := none } = .ok () := rfl

/-- The storage-layer uniqueness key of a timesheet row, per migration
`0002_add_draft_status` `AlterUniqueTogether`:
`(employee, project, date, activity_type, status)`. -/
def uniqueKey (e : Entry) : Nat × Nat × Nat × String × Status :=
  (e.employee, e.project, e.date, e.activityType, e.status)

/-- The store respects the `unique_together` constraint: no two distinct
rows share the uniqueness key. -/
def storeUniqueOk : List Entry → Bool
  | [] => true
  | e :: rest => rest.all (fun x => uniqueKey x ≠ uniqueKey e) && storeUniqueOk rest

/-- Primary keys are unique in the store (a database-layer guarantee for
the `id` column). -/
def idsUnique : List Entry → Bool
  | [] => true
  | e :: rest => rest.all (fun x => x.id ≠ e.id) && idsUnique rest

/-- `INSERT` under the `unique_together` constraint of migration
`0002_add_draft_status`: the row is accepted iff no existing row shares
its `(employee, project, date, activity_type, status)` key. -/
def insertEntry (store : List Entry) (e : Entry) : Except String (List Entry) :=
  if store.all (fun x => uniqueKey x ≠ uniqueKey e) then
    .ok (store ++ [e])
  else
    .error "duplicate entry"

/-- `get_week_start_end_dates` of `timesheets/utils.py`.
Modelled from the spec: `timesheets/utils.py` is not in the snapshot;
§4.1 specifies the Monday of the date's week and `weekStart + 6`.
With day `0` a Monday, the Monday of `d`'s week is `d - d % 7`. -/
def get_week_start_end_dates (d : Nat) : Nat × Nat :=
  (d - d % 7, d - d % 7 + 6)

/-- `get_week_drafts` of `timesheets/utils.py`.
Modelled from the spec: all of the employee's Draft entries whose date
falls within the week window of `weekStartDate` (§4.5 step 2, else
branch). -/
def get_week_drafts (store : List Entry) (empId : Nat) (weekStartDate : Nat) :
    List Entry :=
  let w := get_week_start_end_dates weekStartDate
  store.filter (fun e =>
    e.employee == empId && e.status == .draft &&
    w.1 ≤ e.date && e.date ≤ w.2)

/-- The closed set of validation-error tags (§4.2/§4.3). -/
inductive ErrorKind where
  | InactiveEmployee
  | InactiveProject
  | HoursOutOfRange
  | InvalidActivityType
  | FutureDate
  | DuplicateEntry
  | DailyHoursExceeded
deriving DecidableEq, Repr

/-- Per-entry validation for target status Submitted.
Modelled from the spec: the per-entry half of
`validate_week_timesheets` (`timesheets/utils.py`, not in the
snapshot); §4.2 rules 1-6 in order, short-circuiting on the first
blocking failure.  The hours-range rule reuses the model's field
validators (`hours_worked_valid`), the single hours-range check present
in the source.  Rule 6 checks for another stored row with the same
(employee, project, date, activityType) and the target status
Submitted. -/
def validate_entry_submitted (env : Env) (store : List Entry) (e : Entry) :
    List ErrorKind :=
  match getEmployee env e.employee with
  | none => [.InactiveEmployee]
  | some emp =>
    if !emp.isActive then [.InactiveEmployee]
    else
      match getProject env e.project with
      | none => [.InactiveProject]
      | some proj =>
        if proj.status ≠ "active" then [.InactiveProject]
        else if !hours_worked_valid e.hoursWorked then [.HoursOutOfRange]
        else if proj.activityTypes ≠ [] &&
            !(proj.activityTypes.contains e.activityType) then
          [.InvalidActivityType]
        else if e.date > env.today then [.FutureDate]
        else if store.any (fun x =>
            x.id ≠ e.id && x.employee == e.employee && x.project == e.project &&
            x.date == e.date && x.activityType == e.activityType &&
            x.status == Status.submitted) then
          [.DuplicateEntry]
        else []

/-- Total centi-hours for one employee on one date, counting every batch
entry on that day plus the employee's *other* already-Submitted stored
entries on the same date (§4.3 step 2). -/
def dailyTotal (store batch : List Entry) (emp d : Nat) : Nat :=
  ((batch.filter (fun e => e.employee == emp && e.date == d)).map
      (fun e => e.hoursWorked)).sum +
  ((store.filter (fun x =>
      x.status == Status.submitted && x.employee == emp && x.date == d &&
      !(batch.any (fun e => e.id == x.id)))).map
      (fun x => x.hoursWorked)).sum

/-- The structured report of the Week Validator (§4.3): per-entry
blocking errors keyed by entry id, the (employee, date) pairs whose
daily total exceeds 24 hours (each tagged `DailyHoursExceeded`), and
advisory warnings (entry ids). -/
structure WeekValidation where
  timesheet_errors : List (Nat × List ErrorKind)
  daily_errors : List (Nat × Nat)
  warnings : List Nat
deriving DecidableEq, Repr

/-- `isValid` is true iff steps 1-2 produced no blocking error (§4.3). -/
def WeekValidation.isValid (v : WeekValidation) : Bool :=
  v.timesheet_errors.isEmpty && v.daily_errors.isEmpty

/-- `hasWarnings` is true iff step 3 produced any advisory warning. -/
def WeekValidation.hasWarnings (v : WeekValidation) : Bool :=
  !v.warnings.isEmpty

/-- `validate_week_timesheets` of `timesheets/utils.py`.
Modelled from the spec: §4.3.  Step 1 runs the Submitted-target entry
validator on every batch entry; step 2 flags every (employee, date)
pair touched by the batch whose merged daily total exceeds 24 hours
(2400 centi-hours); step 3's advisory policy is left open by the spec,
which names a missing description as the example warning — that example
is the modelled policy. -/
def validate_week_timesheets (env : Env) (store batch : List Entry) :
    WeekValidation :=
  { timesheet_errors := batch.filterMap (fun e =>
      let errs := validate_entry_submitted env store e
      if errs.isEmpty then none else some (e.id, errs))
  , daily_errors := (batch.map (fun e => (e.employee, e.date))).filter
      (fun p => 2400 < dailyTotal store batch p.1 p.2)
  , warnings := batch.filterMap (fun e =>
      if e.description.getD "" == "" then some e.id else none) }

/-- `calculate_week_totals` of `timesheets/utils.py`, restricted to the
field the claims read.  Modelled from the spec: §4.4, total hours as
the sum of `hoursWorked` over the set. -/
def calculate_week_totals_hours (batch : List Entry) : Nat :=
  (batch.map (fun e => e.hoursWorked)).sum

/-- `Timesheet.submit()` as called by the submission loops.
Modelled from the spec: the current `timesheets/models.py` member is
not in the snapshot; §4.5 step 7 — transition the entry to Submitted,
stamping `submittedAt` with the transition time. -/
def submitEntry (env : Env) (e : Entry) : Entry :=
  { e with status := .submitted, submittedAt := some env.now }

/-- Outcome of DRF serializer validation for a request: field
`ValidationError`s are collected into a 400 "invalid request data"
response, while any other exception escapes `is_valid()` and is caught
by the view's outermost handler. -/
inductive SerializerOutcome where
  | ok
  | validationError (msg : String)
  | exceptionRaised (msg : String)
deriving DecidableEq, Repr

/-- The built-in field lookups Django supports on a `CharField` such as
`Timesheet.status`.  `ne` is not among them: Django has no `__ne`
lookup, so a queryset built with one raises `FieldError`. -/
def charFieldLookups : List String :=
  ["exact", "iexact", "contains", "icontains", "in", "gt", "gte", "lt",
   "lte", "startswith", "istartswith", "endswith", "iendswith", "range",
   "isnull", "regex", "iregex"]

/-- `Timesheet.objects.filter(id__in=ids, status__ne='draft')` from
`WeekSubmissionSerializer.validate_timesheet_ids`
(`timesheets/serializers.py` lines 179-182).  Resolving the lookup
`status__ne` raises `FieldError: Unsupported lookup 'ne'` because `ne`
is not a Django field lookup; the intended filter is in the `.ok`
branch, which is unreachable. -/
def filter_ids_status_ne (store : List Entry) (ids : List Nat) :
    Except String (List Entry) :=
  if charFieldLookups.contains "ne" then
    .ok (store.filter (fun e => ids.contains e.id && e.status ≠ Status.draft))
  else
    .error "Unsupported lookup ne for CharField"

/-- `WeekSubmissionSerializer.is_valid()` over a submit-week request
(`timesheets/serializers.py` lines 144-187).  Field validation runs in
declaration order: `week_start_date` (must be a Monday; a failure is
collected, not raised) then `timesheet_ids` (when present and
non-empty: first the existence check, raising a collected
`ValidationError` for missing ids, then the `status__ne` filter, whose
`FieldError` escapes `is_valid()` uncaught). -/
def week_serializer_check (store : List Entry) (weekStartDate : Nat)
    (ids : Option (List Nat)) : SerializerOutcome :=
  let mondayBad := weekStartDate % 7 ≠ 0
  let mondayOutcome : SerializerOutcome :=
    if mondayBad then .validationError "Week start date must be a Monday"
    else .ok
  match ids with
  | none => mondayOutcome
  | some l =>
    if l.isEmpty then mondayOutcome
    else
      let missing := l.filter (fun i => store.all (fun e => e.id ≠ i))
      if !missing.isEmpty then .validationError "Timesheet IDs not found"
      else
        match filter_ids_status_ne store l with
        | .error m => .exceptionRaised m
        | .ok nonDraft =>
          if !nonDraft.isEmpty then
            .validationError "These timesheets are not drafts"
          else mondayOutcome

/-- Candidate-set resolution of `submit_week_timesheets`
(`timesheets/views.py` lines 368-380): with specific ids (a non-empty
list — `if specific_ids:` treats `[]` as absent) the ids are
intersected with the caller's Drafts inside the week window; otherwise
all of the caller's Drafts in the window are taken. -/
def week_candidates (store : List Entry) (empId weekStartDate : Nat)
    (ids : Option (List Nat)) : List Entry :=
  match ids with
  | some l =>
    if !l.isEmpty then
      let w := get_week_start_end_dates weekStartDate
      store.filter (fun e =>
        l.contains e.id && e.employee == empId && e.status == .draft &&
        w.1 ≤ e.date && e.date ≤ w.2)
    else get_week_drafts store empId weekStartDate
  | none => get_week_drafts store empId weekStartDate

/-- The response of `submit_week_timesheets`, by exit path:
`invalidRequest` = 400 "Invalid request data"; `internalError` = the
outermost handler's 400 "Week submission failed"; `noDrafts` = 404 "No
draft timesheets found for the specified week"; `validationFailed` =
400 "Week submission failed validation"; `warningsBlocked` = 400 "Week
has warnings"; `transitionFailed` = 400 "Week submission failed"
(rolled back); `success` = 200 "Week submitted successfully". -/
inductive SubmitWeekResult where
  | invalidRequest (msg : String)
  | internalError (msg : String)
  | noDrafts
  | validationFailed (v : WeekValidation)
  | warningsBlocked (v : WeekValidation)
  | transitionFailed
  | success (submittedCount : Nat) (totalHours : Nat)
deriving DecidableEq, Repr

/-- Whether the response is an error response (a JSON body carrying an
`error` key, HTTP status ≥ 400).  Every exit of
`submit_week_timesheets` other than the final 200 is one — including
the 404 taken when no drafts are found. -/
def SubmitWeekResult.isErrorResponse : SubmitWeekResult → Bool
  | .success _ _ => false
  | _ => true

/-- The body of `submit_week_timesheets` after the request is parsed
and the candidate set resolved (`timesheets/views.py` lines 382-467).
`fails` is the per-entry runtime-failure oracle for the
`timesheet.submit()` calls inside `transaction.atomic()` (e.g. a
concurrent modification making the save raise): if any candidate's
submit raises, the exception collected in `failed_submissions` is
re-raised and the whole transaction rolls back, leaving the store
unchanged. -/
def submit_week_resolved (env : Env) (store : List Entry)
    (fails : Entry → Bool) (cands : List Entry) (force : Bool) :
    SubmitWeekResult × List Entry :=
  if cands.isEmpty then (.noDrafts, store)
  else
    let v := validate_week_timesheets env store cands
    if !v.isValid then (.validationFailed v, store)
    else if v.hasWarnings && !force then (.warningsBlocked v, store)
    else if cands.any fails then (.transitionFailed, store)
    else
      (.success cands.length
         (calculate_week_totals_hours (cands.map (submitEntry env))),
       store.map (fun e =>
         if cands.any (fun c => c.id == e.id) then submitEntry env e else e))

/-- `submit_week_timesheets` (`timesheets/views.py` lines 335-473):
serializer validation, candidate resolution, then the resolved body.
The caller's employee record is `empId` (the view reads it from
`request.user.employee`). -/
def submit_week (env : Env) (store : List Entry) (fails : Entry → Bool)
    (empId weekStartDate : Nat) (ids : Option (List Nat)) (force : Bool) :
    SubmitWeekResult × List Entry :=
  match week_serializer_check store weekStartDate ids with
  | .validationError m => (.invalidRequest m, store)
  | .exceptionRaised m => (.internalError m, store)
  | .ok =>
    submit_week_resolved env store fails
      (week_candidates store empId weekStartDate ids) force

/-- The response of `timesheet_detail` (PUT and DELETE) and of the
disabled individual-submit endpoint, by exit path. -/
inductive DetailResult where
  | notFound
  | cannotEditSubmitted
  | individualSubmissionBlocked
  | invalidData (msg : String)
  | updated
  | cannotDeleteSubmitted
  | deleted
  | methodNotAllowed
deriving DecidableEq, Repr

/-- PUT branch of `timesheet_detail` (`timesheets/views.py` lines
195-232).  `edit` is the parsed request payload applied as field edits;
`payloadStatus` is the payload's `status` value, if any.  Source order:
reject unless the row is a draft; reject a payload asking for
`submitted`; otherwise force status draft, validate via
`full_clean` (including `validate_unique` against the other rows) and
persist. -/
def timesheet_detail_put (env : Env) (store : List Entry) (pk : Nat)
    (edit : Entry → Entry) (payloadStatus : Option Status) :
    DetailResult × List Entry :=
  match store.find? (fun e => e.id == pk) with
  | none => (.notFound, store)
  | some t =>
    if t.status ≠ .draft then (.cannotEditSubmitted, store)
    else if payloadStatus == some Status.submitted then
      (.individualSubmissionBlocked, store)
    else
      let u := edit t
      let t2 : Entry :=
        { u with id := t.id, status := .draft, submittedAt := t.submittedAt }
      match timesheet_full_clean env t2 with
      | .error m => (.invalidData m, store)
      | .ok _ =>
        if store.all (fun x => x.id == t.id || uniqueKey x ≠ uniqueKey t2) then
          (.updated, store.map (fun x => if x.id == pk then t2 else x))
        else (.invalidData "duplicate entry", store)

/-- DELETE branch of `timesheet_detail` (`timesheets/views.py` lines
234-251): a submitted row is rejected; a draft is deleted. -/
def timesheet_detail_delete (store : List Entry) (pk : Nat) :
    DetailResult × List Entry :=
  match store.find? (fun e => e.id == pk) with
  | none => (.notFound, store)
  | some t =>
    if t.status == Status.submitted then (.cannotDeleteSubmitted, store)
    else (.deleted, store.filter (fun e => e.id ≠ pk))

/-- `submit_timesheet` (`timesheets/views.py` lines 322-332): the
individual-submission endpoint is disabled and always returns 405 with
no store access. -/
def submit_timesheet_endpoint (store : List Entry) (_pk : Nat) :
    DetailResult × List Entry :=
  (.methodNotAllowed, store)

/-- The response of `bulk_timesheet_actions`, by exit path.
`invalidRequest` = serializer 400; `notOwned` = 404 "Some timesheets
not found or do not belong to you"; the rest follow the three action
branches (`actionFailed` is the outermost handler's 400 when a
`submit()` raises inside the transaction, which then rolls back). -/
inductive BulkResult where
  | invalidRequest (msg : String)
  | notOwned
  | noDraftsToSubmit
  | bulkValidationFailed (v : WeekValidation)
  | actionFailed
  | bulkSubmitted (submittedCount : Nat)
  | noDraftsToDelete
  | bulkDeleted (deletedCount : Nat)
  | validated (v : WeekValidation)
  | invalidAction
deriving DecidableEq, Repr

/-- Whether the bulk response is an error response (JSON body with an
`error` key, HTTP status ≥ 400). -/
def BulkResult.isErrorResponse : BulkResult → Bool
  | .bulkSubmitted _ => false
  | .bulkDeleted _ => false
  | .validated _ => false
  | _ => true

/-- `BulkTimesheetActionSerializer.validate_timesheet_ids`
(`timesheets/serializers.py` lines 223-234): a non-empty id list whose
ids all exist (the row count over `id__in` must equal the list
length). -/
def bulk_serializer_check (store : List Entry) (ids : List Nat) :
    SerializerOutcome :=
  if ids.isEmpty then
    .validationError "At least one timesheet ID is required"
  else if (store.filter (fun e => ids.contains e.id)).length ≠ ids.length then
    .validationError "One or more timesheet IDs not found"
  else .ok

/-- The rows `bulk_timesheet_actions` operates on
(`timesheets/views.py` lines 617-620): the supplied ids restricted to
the caller's own rows. -/
def bulk_owned (store : List Entry) (empId : Nat) (ids : List Nat) :
    List Entry :=
  store.filter (fun e => ids.contains e.id && e.employee == empId)

/-- `bulk_timesheet_actions` (`timesheets/views.py` lines 589-686):
serializer validation, the ownership check (row count over the owned
filter must equal the id-list length, else 404 and no mutation), then
the `submit` / `delete` / `validate` branches.  `submit` validates the
owned drafts and submits them in one transaction (`fails` is the
per-entry runtime-failure oracle; any raise rolls the whole batch
back); `delete` deletes exactly the owned drafts, erroring only when
there are none; `validate` mutates nothing. -/
def bulk_timesheet_actions (env : Env) (store : List Entry)
    (fails : Entry → Bool) (empId : Nat) (ids : List Nat)
    (action : String) : BulkResult × List Entry :=
  match bulk_serializer_check store ids with
  | .validationError m => (.invalidRequest m, store)
  | .exceptionRaised m => (.invalidRequest m, store)
  | .ok =>
    let owned := bulk_owned store empId ids
    if owned.length ≠ ids.length then (.notOwned, store)
    else if action == "submit" then
      let drafts := owned.filter (fun e => e.status == Status.draft)
      if drafts.isEmpty then (.noDraftsToSubmit, store)
      else
        let v := validate_week_timesheets env store drafts
        if !v.isValid then (.bulkValidationFailed v, store)
        else if drafts.any fails then (.actionFailed, store)
        else
          (.bulkSubmitted drafts.length,
           store.map (fun e =>
             if drafts.any (fun c => c.id == e.id) then submitEntry env e
             else e))
    else if action == "delete" then
      let drafts := owned.filter (fun e => e.status == Status.draft)
      if drafts.isEmpty then (.noDraftsToDelete, store)
      else
        (.bulkDeleted drafts.length,
         store.filter (fun e =>
           !(ids.contains e.id && e.employee == empId &&
             e.status == Status.draft)))
    else if action == "validate" then
      (.validated (validate_week_timesheets env store owned), store)
    else (.invalidAction, store)

/-- POST branch of `timesheet_list_create` with
`TimesheetCreateSerializer` (`timesheets/views.py` lines 140-164,
`timesheets/serializers.py` lines 78-130): the employee and project
must resolve, the project must be active and the employee active
(the serializer's relaxed draft checks), status is forced to draft,
and the save runs `full_clean` and the uniqueness constraint. -/
def timesheet_create (env : Env) (store : List Entry) (e : Entry) :
    Except String (List Entry) :=
  match getEmployee env e.employee with
  | none => .error "Employee not found"
  | some emp =>
    match getProject env e.project with
    | none => .error "Project not found"
    | some proj =>
      if proj.status ≠ "active" then
        .error "Cannot create timesheet for inactive project."
      else if !emp.isActive then
        .error "Cannot create timesheet for inactive employee."
      else
        let d : Entry := { e with status := Status.draft, submittedAt := none }
        match timesheet_full_clean env d with
        | .error m => .error m
        | .ok _ => insertEntry store d

/-- Rule 1 of §4.2 as a predicate: the referenced employee resolves and
is active. -/
def employeeActiveOk (env : Env) (e : Entry) : Bool :=
  match getEmployee env e.employee with
  | none => false
  | some emp => emp.isActive

/-- Rule 2 of §4.2 as a predicate: the referenced project resolves and
has active status. -/
def projectActiveOk (env : Env) (e : Entry) : Bool :=
  match getProject env e.project with
  | none => false
  | some p => p.status == "active"

/-- Rule 4 of §4.2 as a predicate: the project's allowed-activity set is
empty or contains the entry's activity type. -/
def activityRuleOk (env : Env) (e : Entry) : Bool :=
  match getProject env e.project with
  | none => false
  | some p => p.activityTypes.isEmpty || p.activityTypes.contains e.activityType

/-! ## Concrete fixtures used by witnesses and counterexamples -/

/-- One active employee (id 1), one active project (id 1) with an open
activity set; day 70 is a Monday (70 % 7 = 0) and today is day 100. -/
def envA : Env :=
  { employees := [⟨1, true⟩, ⟨2, true⟩],
    projects := [⟨1, "active", []⟩],
    today := 100, now := 77 }

/-- A draft row for employee 1 on project 1. -/
def draftOn (i d h : Nat) : Entry :=
  { id := i, employee := 1, project := 1, activityType := "dev",
    date := d, hoursWorked := h, description := some "work",
    status := .draft, submittedAt := none }

/-- A submitted row for employee 1 on project 1. -/
def submittedOn (i d h : Nat) : Entry :=
  { id := i, employee := 1, project := 1, activityType := "review",
    date := d, hoursWorked := h, description := some "work",
    status := .submitted, submittedAt := some 5 }

/-- A Submitted twin of `draftOn 1 70 800`: same employee, project,
date and activity type, different status. -/
def submittedTwinA : Entry :=
  { id := 2, employee := 1, project := 1, activityType := "dev",
    date := 70, hoursWorked := 800, description := some "work",
    status := .submitted, submittedAt := some 5 }

/-! ## Helper lemmas -/

theorem idsUnique_cons {e : Entry} {l : List Entry}
    (h : idsUnique (e :: l) = true) :
    (∀ x ∈ l, x.id ≠ e.id) ∧ idsUnique l = true := by
  simp only [idsUnique, Bool.and_eq_true, List.all_eq_true, decide_eq_true_eq]
    at h
  exact h

theorem idsUnique_eq_of_mem {store : List Entry} {a b : Entry}
    (hu : idsUnique store = true) (ha : a ∈ store) (hb : b ∈ store)
    (hid : a.id = b.id) : a = b := by
  induction store with
  | nil => cases ha
  | cons x rest ih =>
    obtain ⟨hx, hrest⟩ := idsUnique_cons hu
    rcases List.mem_cons.mp ha with rfl | ha2
    · rcases List.mem_cons.mp hb with rfl | hb2
      · rfl
      · exact absurd hid.symm (hx b hb2)
    · rcases List.mem_cons.mp hb with rfl | hb2
      · exact absurd hid (hx a ha2)
      · exact ih hrest ha2 hb2

theorem find_id_of_idsUnique {store : List Entry} {e : Entry}
    (hu : idsUnique store = true) (he : e ∈ store) :
    store.find? (fun x => x.id == e.id) = some e := by
  induction store with
  | nil => cases he
  | cons x rest ih =>
    obtain ⟨hx, hrest⟩ := idsUnique_cons hu
    rcases List.mem_cons.mp he with rfl | he2
    · simp [List.find?]
    · have hne : (x.id == e.id) = false := by
        simp only [beq_eq_false_iff_ne, ne_eq]
        intro hxe
        exact hx e he2 hxe.symm
      simp [List.find?, hne, ih hrest he2]

theorem mem_week_candidates {store : List Entry} {empId ws : Nat}
    {ids : Option (List Nat)} {c : Entry}
    (hc : c ∈ week_candidates store empId ws ids) :
    c ∈ store ∧ c.status = .draft := by
  rcases ids with _ | l
  · simp only [week_candidates, get_week_drafts] at hc
    have h := List.mem_filter.mp hc
    refine ⟨h.1, ?_⟩
    have h2 := h.2
    simp only [Bool.and_eq_true, beq_iff_eq] at h2
    exact h2.1.1.2
  · simp only [week_candidates] at hc
    split at hc
    · have h := List.mem_filter.mp hc
      refine ⟨h.1, ?_⟩
      have h2 := h.2
      simp only [Bool.and_eq_true, beq_iff_eq] at h2
      exact h2.1.1.2
    · simp only [get_week_drafts] at hc
      have h := List.mem_filter.mp hc
      refine ⟨h.1, ?_⟩
      have h2 := h.2
      simp only [Bool.and_eq_true, beq_iff_eq] at h2
      exact h2.1.1.2

theorem storeUniqueOk_cons {e : Entry} {l : List Entry}
    (h : storeUniqueOk (e :: l) = true) :
    (∀ x ∈ l, uniqueKey x ≠ uniqueKey e) ∧ storeUniqueOk l = true := by
  simp only [storeUniqueOk, Bool.and_eq_true, List.all_eq_true,
    decide_eq_true_eq] at h
  exact h

theorem storeUniqueOk_key_inj {store : List Entry} {a b : Entry}
    (hu : storeUniqueOk store = true) (ha : a ∈ store) (hb : b ∈ store)
    (hk : uniqueKey a = uniqueKey b) : a = b := by
  induction store with
  | nil => cases ha
  | cons x rest ih =>
    obtain ⟨hx, hrest⟩ := storeUniqueOk_cons hu
    rcases List.mem_cons.mp ha with rfl | ha2
    · rcases List.mem_cons.mp hb with rfl | hb2
      · rfl
      · exact absurd hk.symm (hx b hb2)
    · rcases List.mem_cons.mp hb with rfl | hb2
      · exact absurd hk (hx a ha2)
      · exact ih hrest ha2 hb2

theorem storeUniqueOk_append_singleton {l : List Entry} {e : Entry} :
    storeUniqueOk (l ++ [e]) = true ↔
      (storeUniqueOk l = true ∧ ∀ x ∈ l, uniqueKey x ≠ uniqueKey e) := by
  induction l with
  | nil =>
    simp [storeUniqueOk]
  | cons a rest ih =>
    constructor
    · intro h
      rw [List.cons_append] at h
      obtain ⟨hall, hrest⟩ := storeUniqueOk_cons h
      obtain ⟨hru, hre⟩ := ih.mp hrest
      refine ⟨?_, ?_⟩
      · simp only [storeUniqueOk, Bool.and_eq_true, List.all_eq_true,
          decide_eq_true_eq]
        exact ⟨fun x hx => hall x (List.mem_append.mpr (Or.inl hx)), hru⟩
      · intro x hx
        rcases List.mem_cons.mp hx with rfl | hx2
        · exact fun hk =>
            hall e (List.mem_append.mpr (Or.inr (List.mem_singleton.mpr rfl)))
              hk.symm
        · exact hre x hx2
    · rintro ⟨hau, hke⟩
      obtain ⟨hra, hru⟩ := storeUniqueOk_cons hau
      rw [List.cons_append]
      simp only [storeUniqueOk, Bool.and_eq_true, List.all_eq_true,
        decide_eq_true_eq]
      refine ⟨?_, ih.mpr ⟨hru, fun x hx => hke x (List.mem_cons.mpr (Or.inr hx))⟩⟩
      intro x hx
      rcases List.mem_append.mp hx with hx1 | hx1
      · exact hra x hx1
      · rw [List.mem_singleton.mp hx1]
        exact fun hk => hke a (List.mem_cons.mpr (Or.inl rfl)) hk.symm

/-- Claim C3: under the storage uniqueness constraint of migration
`0002_add_draft_status`, (a) no two stored entries agree on all of
(employee, project, date, activityType, status); (b) inserting under
the constraint preserves this invariant; (c) a Submitted entry whose
(employee, project, date, activityType) slot is occupied only by a
Draft is accepted by the constraint check, so one Draft and one
Submitted entry for the same logical slot can both be saved and
coexist. -/
theorem unique_together_constraint :
    (∀ store : List Entry, storeUniqueOk store = true →
      ∀ a ∈ store, ∀ b ∈ store, uniqueKey a = uniqueKey b → a = b)
  ∧ (∀ (store : List Entry) (e : Entry) (s2 : List Entry),
      storeUniqueOk store = true → insertEntry store e = .ok s2 →
      storeUniqueOk s2 = true)
  ∧ (∀ (store : List Entry) (e : Entry), e.status = .submitted →
      (∀ x ∈ store, x.status = Status.submitted →
        ¬(x.employee = e.employee ∧ x.project = e.project ∧
          x.date = e.date ∧ x.activityType = e.activityType)) →
      insertEntry store e = .ok (store ++ [e])) := by
  refine ⟨fun store hu a ha b hb hk => storeUniqueOk_key_inj hu ha hb hk,
    ?_, ?_⟩
  · intro store e s2 hu hins
    unfold insertEntry at hins
    split at hins
    · rename_i hall
      simp only [List.all_eq_true, decide_eq_true_eq] at hall
      obtain rfl : store ++ [e] = s2 := by injection hins
      exact storeUniqueOk_append_singleton.mpr ⟨hu, hall⟩
    · exact Except.noConfusion hins
  · intro store e hsub hslot
    unfold insertEntry
    rw [if_pos]
    simp only [List.all_eq_true, decide_eq_true_eq]
    intro x hx hk
    by_cases hxs : x.status = Status.submitted
    · apply hslot x hx hxs
      unfold uniqueKey at hk
      refine ⟨congrArg Prod.fst hk, ?_, ?_, ?_⟩
      · exact congrArg (fun p => p.2.1) hk
      · exact congrArg (fun p => p.2.2.1) hk
      · exact congrArg (fun p => p.2.2.2.1) hk
    · apply hxs
      have := congrArg (fun p => p.2.2.2.2) hk
      simpa [uniqueKey, hsub] using this

/-- Witness for C3: a Draft and a Submitted entry with the same
(employee, project, date, activityType) both saved in one store, and
the store still satisfies the uniqueness invariant. -/
theorem unique_together_constraint_witness :
    insertEntry [draftOn 1 70 800] submittedTwinA
      = .ok [draftOn 1 70 800, submittedTwinA]
  ∧ storeUniqueOk [draftOn 1 70 800, submittedTwinA] = true :=
  ⟨unique_together_constraint.2.2 [draftOn 1 70 800] submittedTwinA rfl
     (by decide),
   by decide⟩

theorem timesheet_full_clean_ok_iff (env : Env) (e : Entry) :
    timesheet_full_clean env e = .ok () ↔
      (hours_worked_valid e.hoursWorked = true ∧ e.date ≤ env.today ∧
       employeeActiveOk env e = true ∧ projectActiveOk env e = true ∧
       activityRuleOk env e = true) := by
  unfold timesheet_full_clean timesheet_clean employeeActiveOk
    projectActiveOk activityRuleOk
  by_cases h1 : hours_worked_valid e.hoursWorked = true
  case neg =>
    rw [Bool.not_eq_true] at h1
    simp [h1]
  case pos =>
    rw [h1]
    simp only [Bool.not_true, Bool.false_eq_true, if_false]
    by_cases h2 : e.date > env.today
    · rw [if_pos h2]
      constructor
      · intro h; exact Except.noConfusion h
      · rintro ⟨-, hle, -⟩; exact absurd hle (by omega)
    · rw [if_neg h2]
      cases hp : getProject env e.project with
      | none => simp
      | some proj =>
        dsimp only
        by_cases h3 : (decide (proj.activityTypes ≠ []) &&
            !proj.activityTypes.contains e.activityType) = true
        · rw [if_pos h3]
          simp only [Bool.and_eq_true, decide_eq_true_eq,
            Bool.not_eq_true'] at h3
          constructor
          · intro h; exact Except.noConfusion h
          · rintro ⟨-, -, -, -, hact⟩
            simp only [Bool.or_eq_true, List.isEmpty_iff] at hact
            rcases hact with hnil | hcon
            · exact (h3.1 hnil).elim
            · rw [h3.2] at hcon; exact Bool.noConfusion hcon
        · rw [if_neg h3]
          simp only [Bool.and_eq_true, decide_eq_true_eq, Bool.not_eq_true',
            not_and] at h3
          cases he : getEmployee env e.employee with
          | none => simp
          | some emp =>
            dsimp only
            by_cases h4 : emp.isActive = true
            · rw [h4]
              simp only [Bool.not_true, Bool.false_eq_true, if_false]
              by_cases h5 : proj.status = "active"
              · rw [if_neg (by simp [h5])]
                constructor
                · intro _
                  refine ⟨trivial, by omega, trivial, by simp [h5], ?_⟩
                  simp only [Bool.or_eq_true, List.isEmpty_iff]
                  by_cases hnil : proj.activityTypes = []
                  · exact Or.inl hnil
                  · exact Or.inr (Bool.ne_false_iff.mp (h3 hnil))
                · intro _; rfl
              · rw [if_pos (by simp [h5])]
                constructor
                · intro h; exact Except.noConfusion h
                · rintro ⟨-, -, -, hps, -⟩
                  simp only [beq_iff_eq] at hps
                  exact (h5 hps).elim
            · rw [Bool.not_eq_true] at h4
              rw [h4]
              simp [h4]

theorem validate_entry_submitted_hours {env : Env} {store : List Entry}
    {e : Entry} (hv : validate_entry_submitted env store e = []) :
    hours_worked_valid e.hoursWorked = true := by
  cases hw : hours_worked_valid e.hoursWorked
  case false =>
    exfalso
    unfold validate_entry_submitted at hv
    rw [hw] at hv
    repeat' split at hv
    all_goals simp_all
  case true => rfl

/-- Claim C6 counterexample: a draft whose date is strictly after today
(101 > 100), referencing an active employee and an active project with
valid hours, is rejected by draft creation with "Date cannot be in the
future." — the future-date rule is applied to drafts, so validation for
Draft status is not limited to rules 1-4. -/
theorem draft_future_date_rejected_cex :
    timesheet_create envA [] (draftOn 9 101 800)
      = .error "Date cannot be in the future."
  ∧ (draftOn 9 101 800).date > envA.today
  ∧ (draftOn 9 101 800).status = .draft
  ∧ employeeActiveOk envA (draftOn 9 101 800) = true
  ∧ projectActiveOk envA (draftOn 9 101 800) = true
  ∧ hours_worked_valid (draftOn 9 101 800).hoursWorked = true
  ∧ activityRuleOk envA (draftOn 9 101 800) = true :=
  ⟨rfl, by decide, rfl, by decide, by decide, by decide, by decide⟩

/-- Claim C6 (amended): validation of an entry for Draft status applies
rules 1-4 (active employee, active project, hours range, allowed
activity type) AND the future-date rule: the save-time validation
accepts exactly when rules 1-4 pass and the date is not strictly after
today, so a draft dated after today is rejected. -/
theorem draft_validation_ruleset (env : Env) (e : Entry) :
    timesheet_full_clean env e = .ok () ↔
      (employeeActiveOk env e = true ∧ projectActiveOk env e = true ∧
       hours_worked_valid e.hoursWorked = true ∧
       activityRuleOk env e = true ∧ e.date ≤ env.today) := by
  rw [timesheet_full_clean_ok_iff]
  tauto

/-- Witness for the amended C6: a concrete in-range draft dated before
today passes the draft validation, by the amended theorem. -/
theorem draft_validation_ruleset_witness :
    timesheet_full_clean envA (draftOn 1 70 800) = .ok () :=
  (draft_validation_ruleset envA (draftOn 1 70 800)).mpr (by decide)

/-- Claim C7 counterexample: at `hoursWorked = 0.05` (5 centi-hours),
which lies in (0, 24], the hours-range check rejects — the claimed
acceptance condition 0 < h ≤ 24 does not match the check. -/
theorem hours_range_claim_cex :
    ¬ (hours_worked_valid 5 = true ↔ (0 < 5 ∧ 5 ≤ 2400)) := by decide

/-- Claim C7 (amended): the hours-range check accepts h iff
0.1 ≤ h ≤ 24 (10 ≤ h ≤ 2400 centi-hours, from `MinValueValidator(0.1)`
and `MaxValueValidator(24.0)`); any h outside [0.1, 24] is rejected
both at draft-save time (`full_clean`) and at submitted-validation
time, for both statuses. -/
theorem hours_range_check_bounds (env : Env) (store : List Entry)
    (e : Entry) (h : Nat) :
    (hours_worked_valid h = true ↔ (10 ≤ h ∧ h ≤ 2400))
  ∧ (timesheet_full_clean env e = .ok () →
      10 ≤ e.hoursWorked ∧ e.hoursWorked ≤ 2400)
  ∧ (validate_entry_submitted env store e = [] →
      10 ≤ e.hoursWorked ∧ e.hoursWorked ≤ 2400) := by
  have hiff : ∀ n : Nat, hours_worked_valid n = true ↔ (10 ≤ n ∧ n ≤ 2400) := by
    intro n
    simp [hours_worked_valid, minValueOk, maxValueOk]
  refine ⟨hiff h, ?_, ?_⟩
  · intro hok
    exact (hiff e.hoursWorked).mp
      ((timesheet_full_clean_ok_iff env e).mp hok).1
  · intro hv
    exact (hiff e.hoursWorked).mp (validate_entry_submitted_hours hv)

/-- Witness for the amended C7: applied at 8.00 hours (800 centi-hours)
with a concrete draft accepted by `full_clean`. -/
theorem hours_range_check_bounds_witness :
    10 ≤ (draftOn 1 70 800).hoursWorked
  ∧ (draftOn 1 70 800).hoursWorked ≤ 2400 :=
  (hours_range_check_bounds envA [] (draftOn 1 70 800) 800).2.1 rfl

/-- Claim C5 counterexample: a week whose drafts have all been
submitted already.  The second `SubmitWeek` call performs no mutation,
but it returns the 404 error response "No draft timesheets found for
the specified week" — an error, not a "nothing to submit" no-op
report. -/
theorem submit_week_empty_is_error_cex :
    submit_week envA [submittedOn 3 70 800] (fun _ => false) 1 70 none false
      = (.noDrafts, [submittedOn 3 70 800])
  ∧ SubmitWeekResult.noDrafts.isErrorResponse = true := by decide

/-- Claim C5 (amended): for every SubmitWeek call whose resolved
candidate set is empty, the call returns the 404 error response "No
draft timesheets found for the specified week" (an error response, not
a no-op report) and performs no mutation of any stored entry. -/
theorem submit_week_empty_noop (env : Env) (store : List Entry)
    (fails : Entry → Bool) (empId ws : Nat) (force : Bool)
    (hmon : ws % 7 = 0)
    (hempty : get_week_drafts store empId ws = []) :
    submit_week env store fails empId ws none force = (.noDrafts, store)
  ∧ SubmitWeekResult.noDrafts.isErrorResponse = true := by
  refine ⟨?_, rfl⟩
  unfold submit_week week_serializer_check
  simp only [hmon, ne_eq, not_true_eq_false, if_false]
  unfold submit_week_resolved week_candidates
  simp [hempty]

/-- Witness for the amended C5: a concrete store holding only a
submitted entry for the window, via the amended theorem. -/
theorem submit_week_empty_noop_witness :
    submit_week envA [submittedOn 4 71 900] (fun _ => false) 1 70 none false
      = (.noDrafts, [submittedOn 4 71 900]) :=
  (submit_week_empty_noop envA [submittedOn 4 71 900] (fun _ => false) 1 70
    false (by decide) (by decide)).1

/-- Claim C8: any SubmitWeek call that supplies a non-empty
`timesheet_ids` list of existing ids never reaches candidate
resolution: `WeekSubmissionSerializer.validate_timesheet_ids` builds
`filter(id__in=..., status__ne='draft')`, and `ne` is not a Django
field lookup, so `FieldError` escapes `is_valid()` and the view
returns the outermost 400 "Week submission failed".  The intended
candidate intersection (second conjunct) is exactly the one the claim
describes, but the code that computes it is unreachable. -/
theorem explicit_ids_fielderror :
    submit_week envA [draftOn 1 70 800] (fun _ => false) 1 70 (some [1]) false
      = (.internalError "Unsupported lookup ne for CharField",
         [draftOn 1 70 800])
  ∧ week_candidates [draftOn 1 70 800] 1 70 (some [1]) = [draftOn 1 70 800] := by
  decide

theorem mem_map_submit_of_not_cand {env : Env} {store cands : List Entry}
    {e : Entry} (he : e ∈ store)
    (hno : ∀ c ∈ cands, c.id ≠ e.id) :
    e ∈ store.map (fun x =>
      if cands.any (fun c => c.id == x.id) then submitEntry env x else x) := by
  refine List.mem_map.mpr ⟨e, he, ?_⟩
  have hc : (cands.any (fun c => c.id == e.id)) = false := by
    cases hca : cands.any (fun c => c.id == e.id)
    · rfl
    · obtain ⟨c, hcmem, hcid⟩ := List.any_eq_true.mp hca
      exact absurd (by simpa using hcid) (hno c hcmem)
  simp [hc]

theorem submitted_frame_submit_week {env : Env} {store : List Entry}
    {fails : Entry → Bool} {empId ws : Nat} {ids : Option (List Nat)}
    {force : Bool} {e : Entry}
    (hu : idsUnique store = true) (he : e ∈ store)
    (hs : e.status = .submitted) :
    e ∈ (submit_week env store fails empId ws ids force).2 := by
  unfold submit_week
  cases hsc : week_serializer_check store ws ids with
  | validationError m => exact he
  | exceptionRaised m => exact he
  | ok =>
    unfold submit_week_resolved
    dsimp only
    split
    · exact he
    · split
      · exact he
      · split
        · exact he
        · split
          · exact he
          · apply mem_map_submit_of_not_cand he
            intro c hc hcid
            obtain ⟨hcs, hcd⟩ := mem_week_candidates hc
            have hce := idsUnique_eq_of_mem hu hcs he hcid
            rw [hce, hs] at hcd
            exact Status.noConfusion hcd

theorem bulk_frame {env : Env} {store : List Entry} {fails : Entry → Bool}
    {empId : Nat} {bids : List Nat} {action : String} {e : Entry}
    (hu : idsUnique store = true) (he : e ∈ store)
    (hnot : ¬(bids.contains e.id = true ∧ e.employee = empId ∧
              e.status = Status.draft)) :
    e ∈ (bulk_timesheet_actions env store fails empId bids action).2 := by
  have hnotdraft : ∀ c, c ∈ bulk_owned store empId bids →
      c.status = Status.draft → c.id ≠ e.id := by
    intro c hc hcd hcid
    obtain ⟨hcs, hcp⟩ := List.mem_filter.mp hc
    simp only [Bool.and_eq_true, beq_iff_eq] at hcp
    have hce := idsUnique_eq_of_mem hu hcs he hcid
    subst hce
    exact hnot ⟨hcp.1, hcp.2, hcd⟩
  unfold bulk_timesheet_actions
  cases hbc : bulk_serializer_check store bids with
  | validationError m => exact he
  | exceptionRaised m => exact he
  | ok =>
    dsimp only
    split
    · exact he
    · split
      · -- action = "submit"
        split
        · exact he
        · split
          · exact he
          · split
            · exact he
            · apply mem_map_submit_of_not_cand he
              intro c hc
              have hcm := List.mem_filter.mp hc
              exact hnotdraft c hcm.1 (by simpa using hcm.2)
      · split
        · -- action = "delete"
          split
          · exact he
          · refine List.mem_filter.mpr ⟨he, ?_⟩
            have : (bids.contains e.id && e.employee == empId &&
                e.status == Status.draft) = false := by
              cases hA : bids.contains e.id <;>
                cases hB : e.employee == empId <;>
                cases hC : e.status == Status.draft <;> simp_all
            rw [this]
            rfl
        · split
          · exact he
          · exact he

theorem mem_map_ite_submit {env : Env} {store cands : List Entry} {x : Entry}
    (hx : x ∈ store.map (fun y =>
      if cands.any (fun c => c.id == y.id) then submitEntry env y else y)) :
    (∃ y ∈ store, x = submitEntry env y ∧
       cands.any (fun c => c.id == y.id) = true)
  ∨ (∃ y ∈ store, x = y ∧
       cands.any (fun c => c.id == y.id) = false) := by
  obtain ⟨y, hy, hyx⟩ := List.mem_map.mp hx
  cases hcond : cands.any (fun c => c.id == y.id)
  · exact Or.inr ⟨y, hy, by rw [← hyx]; simp [hcond], hcond⟩
  · exact Or.inl ⟨y, hy, by rw [← hyx]; simp [hcond], hcond⟩

/-- Claim C4: Submitted is terminal.  A PUT targeting a Submitted entry
is rejected ("Cannot edit submitted timesheet") with the store
unchanged; a DELETE targeting it is rejected ("Cannot delete submitted
timesheet") with the store unchanged; the individual-submission
endpoint is a 405 no-op; and both submission orchestrators
(`submit_week_timesheets` and `bulk_timesheet_actions`, any action)
leave every Submitted entry exactly as it was. -/
theorem submitted_is_terminal (env : Env) (store : List Entry)
    (fails : Entry → Bool) (e : Entry) (edit : Entry → Entry)
    (ps : Option Status) (empId ws : Nat) (ids : Option (List Nat))
    (force : Bool) (bids : List Nat) (action : String)
    (hu : idsUnique store = true) (he : e ∈ store)
    (hs : e.status = .submitted) :
    timesheet_detail_put env store e.id edit ps
      = (.cannotEditSubmitted, store)
  ∧ timesheet_detail_delete store e.id = (.cannotDeleteSubmitted, store)
  ∧ submit_timesheet_endpoint store e.id = (.methodNotAllowed, store)
  ∧ e ∈ (submit_week env store fails empId ws ids force).2
  ∧ e ∈ (bulk_timesheet_actions env store fails empId bids action).2 := by
  refine ⟨?_, ?_, rfl, submitted_frame_submit_week hu he hs,
    bulk_frame hu he (by rw [hs]; rintro ⟨-, -, h⟩; exact Status.noConfusion h)⟩
  · unfold timesheet_detail_put
    rw [find_id_of_idsUnique hu he]
    dsimp only
    rw [if_pos (by rw [hs]; exact fun h => Status.noConfusion h)]
  · unfold timesheet_detail_delete
    rw [find_id_of_idsUnique hu he]
    dsimp only
    rw [hs]
    rfl

/-- Witness for C4: a store holding one Submitted entry, with every
operation applied to it concretely. -/
theorem submitted_is_terminal_witness :
    timesheet_detail_put envA [submittedOn 3 70 800] (submittedOn 3 70 800).id
      (fun x => x) none
      = (.cannotEditSubmitted, [submittedOn 3 70 800])
  ∧ timesheet_detail_delete [submittedOn 3 70 800] (submittedOn 3 70 800).id
      = (.cannotDeleteSubmitted, [submittedOn 3 70 800])
  ∧ submit_timesheet_endpoint [submittedOn 3 70 800] (submittedOn 3 70 800).id
      = (.methodNotAllowed, [submittedOn 3 70 800])
  ∧ submittedOn 3 70 800 ∈
      (submit_week envA [submittedOn 3 70 800] (fun _ => false)
        1 70 none false).2
  ∧ submittedOn 3 70 800 ∈
      (bulk_timesheet_actions envA [submittedOn 3 70 800] (fun _ => false)
        1 [3] "delete").2 :=
  submitted_is_terminal envA [submittedOn 3 70 800] (fun _ => false)
    (submittedOn 3 70 800) (fun x => x) none 1 70 none false [3] "delete"
    (by decide) (by decide) rfl

/-- Claim C1: batch submission is atomic.  For every SubmitWeek call
whose candidate set passes week validation, either the call succeeds
and every row carrying a candidate id ends Submitted with
`submittedAt` stamped, or the store is returned unchanged and every
candidate keeps its prior Draft state (in particular when any
per-entry transition fails, the whole transaction rolls back). -/
theorem submit_week_atomicity (env : Env) (store : List Entry)
    (fails : Entry → Bool) (empId ws : Nat) (ids : Option (List Nat))
    (force : Bool)
    (hu : idsUnique store = true)
    (hv : (validate_week_timesheets env store
            (week_candidates store empId ws ids)).isValid = true) :
    (∃ n t, (submit_week env store fails empId ws ids force).1
        = .success n t
      ∧ ∀ e ∈ week_candidates store empId ws ids,
          ∀ x ∈ (submit_week env store fails empId ws ids force).2,
            x.id = e.id →
              x.status = .submitted ∧ x.submittedAt = some env.now)
  ∨ ((submit_week env store fails empId ws ids force).2 = store
     ∧ ∀ e ∈ week_candidates store empId ws ids,
         e.status = .draft ∧ e ∈ store) := by
  have hdraft : ∀ e ∈ week_candidates store empId ws ids,
      e.status = .draft ∧ e ∈ store :=
    fun e hec => ⟨(mem_week_candidates hec).2, (mem_week_candidates hec).1⟩
  unfold submit_week
  cases hsc : week_serializer_check store ws ids with
  | validationError m => exact Or.inr ⟨rfl, hdraft⟩
  | exceptionRaised m => exact Or.inr ⟨rfl, hdraft⟩
  | ok =>
    unfold submit_week_resolved
    dsimp only
    split
    · exact Or.inr ⟨rfl, hdraft⟩
    · split
      · exact Or.inr ⟨rfl, hdraft⟩
      · split
        · exact Or.inr ⟨rfl, hdraft⟩
        · split
          · exact Or.inr ⟨rfl, hdraft⟩
          · refine Or.inl ⟨_, _, rfl, ?_⟩
            intro e hec x hx hxid
            obtain h1 | h2 := mem_map_ite_submit hx
            · obtain ⟨y, hy, rfl, -⟩ := h1
              exact ⟨rfl, rfl⟩
            · obtain ⟨y, hy, rfl, hcond⟩ := h2
              exfalso
              have heq := idsUnique_eq_of_mem hu (hdraft e hec).2 hy hxid.symm
              subst heq
              have : (week_candidates store empId ws ids).any
                  (fun c => c.id == e.id) = true :=
                List.any_eq_true.mpr ⟨e, hec, by simp⟩
              rw [this] at hcond
              exact Bool.noConfusion hcond

/-- Witness for C1: two valid drafts in one week, submitted with no
transition failure; the atomicity dichotomy holds at this input. -/
theorem submit_week_atomicity_witness :
    (∃ n t, (submit_week envA [draftOn 1 70 800, draftOn 2 71 800]
          (fun _ => false) 1 70 none false).1 = .success n t
      ∧ ∀ e ∈ week_candidates [draftOn 1 70 800, draftOn 2 71 800] 1 70 none,
          ∀ x ∈ (submit_week envA [draftOn 1 70 800, draftOn 2 71 800]
              (fun _ => false) 1 70 none false).2,
            x.id = e.id →
              x.status = .submitted ∧ x.submittedAt = some envA.now)
  ∨ ((submit_week envA [draftOn 1 70 800, draftOn 2 71 800]
        (fun _ => false) 1 70 none false).2
      = [draftOn 1 70 800, draftOn 2 71 800]
     ∧ ∀ e ∈ week_candidates [draftOn 1 70 800, draftOn 2 71 800] 1 70 none,
         e.status = .draft ∧ e ∈ [draftOn 1 70 800, draftOn 2 71 800]) :=
  submit_week_atomicity envA [draftOn 1 70 800, draftOn 2 71 800]
    (fun _ => false) 1 70 none false (by decide) (by decide)

theorem submit_week_resolved_invalid {env : Env} {store : List Entry}
    {fails : Entry → Bool} {cands : List Entry} {force : Bool}
    (hne : cands ≠ [])
    (hval : (validate_week_timesheets env store cands).isValid = false) :
    submit_week_resolved env store fails cands force
      = (.validationFailed (validate_week_timesheets env store cands),
         store) := by
  have h1 : cands.isEmpty = false := by
    cases cands
    · exact absurd rfl hne
    · rfl
  unfold submit_week_resolved
  simp only [h1, Bool.false_eq_true, if_false, hval, Bool.not_false, if_true]

/-- Claim C2: if, for the employee and date of some candidate entry,
the candidate batch merged with that employee's other already-Submitted
entries on the same date exceeds 24 hours (2400 centi-hours), the
whole submission returns the validation-failure error carrying a
`DailyHoursExceeded` blocking record for that (employee, date), the
store is unchanged, and every candidate stays Draft. -/
theorem daily_cap_blocks_submission (env : Env) (store : List Entry)
    (fails : Entry → Bool) (empId ws : Nat) (force : Bool) (e : Entry)
    (hmon : ws % 7 = 0)
    (he : e ∈ get_week_drafts store empId ws)
    (htot : 2400 < dailyTotal store (get_week_drafts store empId ws)
              e.employee e.date) :
    submit_week env store fails empId ws none force
      = (.validationFailed
           (validate_week_timesheets env store
             (get_week_drafts store empId ws)), store)
  ∧ (e.employee, e.date) ∈
      (validate_week_timesheets env store
        (get_week_drafts store empId ws)).daily_errors
  ∧ (validate_week_timesheets env store
      (get_week_drafts store empId ws)).isValid = false
  ∧ ∀ c ∈ get_week_drafts store empId ws, c.status = .draft ∧ c ∈ store := by
  have hmem : (e.employee, e.date) ∈
      (validate_week_timesheets env store
        (get_week_drafts store empId ws)).daily_errors := by
    unfold validate_week_timesheets
    dsimp only
    refine List.mem_filter.mpr ⟨List.mem_map.mpr ⟨e, he, rfl⟩, ?_⟩
    exact decide_eq_true htot
  have hvalid : (validate_week_timesheets env store
      (get_week_drafts store empId ws)).isValid = false := by
    unfold WeekValidation.isValid
    have hde : (validate_week_timesheets env store
        (get_week_drafts store empId ws)).daily_errors.isEmpty = false := by
      cases hd : (validate_week_timesheets env store
          (get_week_drafts store empId ws)).daily_errors
      · rw [hd] at hmem; cases hmem
      · rfl
    rw [hde, Bool.and_false]
  have hdraft : ∀ c ∈ get_week_drafts store empId ws,
      c.status = .draft ∧ c ∈ store := by
    intro c hc
    have h := List.mem_filter.mp hc
    refine ⟨?_, h.1⟩
    have h2 := h.2
    simp only [Bool.and_eq_true, beq_iff_eq] at h2
    exact h2.1.1.2
  refine ⟨?_, hmem, hvalid, hdraft⟩
  unfold submit_week week_serializer_check
  simp only [hmon, ne_eq, not_true_eq_false, if_false]
  have hc : week_candidates store empId ws none
      = get_week_drafts store empId ws := rfl
  rw [hc]
  exact submit_week_resolved_invalid (List.ne_nil_of_mem he) hvalid

/-- Witness for C2: a 20-hour draft on day 70 plus an already-Submitted
10-hour entry the same day total 30 hours; the submission is rejected
with `DailyHoursExceeded` and both rows keep their state. -/
theorem daily_cap_blocks_submission_witness :
    submit_week envA [draftOn 1 70 2000, submittedOn 9 70 1000]
        (fun _ => false) 1 70 none false
      = (.validationFailed
           (validate_week_timesheets envA
             [draftOn 1 70 2000, submittedOn 9 70 1000]
             (get_week_drafts [draftOn 1 70 2000, submittedOn 9 70 1000]
               1 70)),
         [draftOn 1 70 2000, submittedOn 9 70 1000])
  ∧ ((draftOn 1 70 2000).employee, (draftOn 1 70 2000).date) ∈
      (validate_week_timesheets envA
        [draftOn 1 70 2000, submittedOn 9 70 1000]
        (get_week_drafts [draftOn 1 70 2000, submittedOn 9 70 1000]
          1 70)).daily_errors := by
  have h := daily_cap_blocks_submission envA
    [draftOn 1 70 2000, submittedOn 9 70 1000] (fun _ => false) 1 70 false
    (draftOn 1 70 2000) (by decide) (by decide) (by decide)
  exact ⟨h.1, h.2.1⟩

theorem idsUnique_nodup_map {l : List Entry} (h : idsUnique l = true) :
    (l.map (fun e => e.id)).Nodup := by
  induction l with
  | nil => exact List.nodup_nil
  | cons e rest ih =>
    obtain ⟨hall, hrest⟩ := idsUnique_cons h
    rw [List.map_cons, List.nodup_cons]
    refine ⟨?_, ih hrest⟩
    intro hmem
    obtain ⟨x, hx, hxe⟩ := List.mem_map.mp hmem
    exact hall x hx hxe

theorem all_ids_covered {l : List Entry} {ids : List Nat}
    (hnodup : (l.map (fun e => e.id)).Nodup)
    (hsub : ∀ x ∈ l, x.id ∈ ids)
    (hlen : l.length = ids.length) :
    ∀ i ∈ ids, ∃ x ∈ l, x.id = i := by
  intro i hi
  have hlsub : ∀ a ∈ l.map (fun e => e.id), a ∈ ids := by
    intro a ha
    obtain ⟨x, hx, rfl⟩ := List.mem_map.mp ha
    exact hsub x hx
  have hcard1 : (l.map (fun e => e.id)).toFinset.card
      = (l.map (fun e => e.id)).length :=
    List.toFinset_card_of_nodup hnodup
  have hsubf : (l.map (fun e => e.id)).toFinset ⊆ ids.toFinset := by
    intro a ha
    exact List.mem_toFinset.mpr (hlsub a (List.mem_toFinset.mp ha))
  have hge : ids.toFinset.card ≤ (l.map (fun e => e.id)).toFinset.card := by
    calc ids.toFinset.card ≤ ids.length := List.toFinset_card_le ids
    _ = l.length := hlen.symm
    _ = (l.map (fun e => e.id)).length := (List.length_map l _).symm
    _ = (l.map (fun e => e.id)).toFinset.card := hcard1.symm
  have heqf := Finset.eq_of_subset_of_card_le hsubf hge
  have : i ∈ l.map (fun e => e.id) :=
    List.mem_toFinset.mp (heqf ▸ List.mem_toFinset.mpr hi)
  obtain ⟨x, hx, hxi⟩ := List.mem_map.mp this
  exact ⟨x, hx, hxi⟩

theorem mem_bulk_owned {store : List Entry} {empId : Nat} {ids : List Nat}
    {x : Entry} (hx : x ∈ bulk_owned store empId ids) :
    x ∈ store ∧ x.id ∈ ids ∧ x.employee = empId := by
  have h := List.mem_filter.mp hx
  have h2 := h.2
  simp only [Bool.and_eq_true, beq_iff_eq, List.contains, List.elem_eq_mem,
    decide_eq_true_eq] at h2
  exact ⟨h.1, h2.1, h2.2⟩

/-- Claim C9: `bulk_timesheet_actions` operates only on rows owned by
the calling employee.  If any supplied id does not resolve to a row
owned by the caller, the whole request is rejected (serializer 400 or
ownership 404) with the store unchanged; and rows belonging to other
employees are never mutated by any action. -/
theorem bulk_owned_only (env : Env) (store : List Entry)
    (fails : Entry → Bool) (empId : Nat) (ids : List Nat) (action : String)
    (hu : idsUnique store = true) :
    ((∃ i ∈ ids, ∀ x ∈ store, ¬(x.id = i ∧ x.employee = empId)) →
        (bulk_timesheet_actions env store fails empId ids action
          ).1.isErrorResponse = true
      ∧ (bulk_timesheet_actions env store fails empId ids action).2 = store)
  ∧ (∀ x ∈ store, x.employee ≠ empId →
      x ∈ (bulk_timesheet_actions env store fails empId ids action).2) := by
  constructor
  · rintro ⟨i, hi, hnone⟩
    unfold bulk_timesheet_actions
    cases hbc : bulk_serializer_check store ids with
    | validationError m => exact ⟨rfl, rfl⟩
    | exceptionRaised m => exact ⟨rfl, rfl⟩
    | ok =>
      dsimp only
      have howned : (bulk_owned store empId ids).length ≠ ids.length := by
        intro heq
        have hsub : ∀ x ∈ bulk_owned store empId ids, x.id ∈ ids :=
          fun x hx => (mem_bulk_owned hx).2.1
        have hnodup : ((bulk_owned store empId ids).map (fun e => e.id)).Nodup := by
          have hfil : List.Sublist (bulk_owned store empId ids) store :=
            List.filter_sublist store
          exact List.Nodup.sublist (hfil.map (fun e => e.id))
            (idsUnique_nodup_map hu)
        obtain ⟨x, hx, hxi⟩ := all_ids_covered hnodup hsub heq i hi
        exact hnone x (mem_bulk_owned hx).1 ⟨hxi, (mem_bulk_owned hx).2.2⟩
      rw [if_pos howned]
      exact ⟨rfl, rfl⟩
  · intro x hx hne
    exact bulk_frame hu hx (fun h => hne h.2.1)

/-- Witness for C9: ids {1, 5} where row 5 belongs to employee 2; the
request by employee 1 is rejected and the store untouched. -/
theorem bulk_owned_only_witness :
    (bulk_timesheet_actions envA
        [draftOn 1 70 800,
         { id := 5, employee := 2, project := 1, activityType := "dev",
           date := 70, hoursWorked := 800, description := some "work",
           status := .draft, submittedAt := none }]
        (fun _ => false) 1 [1, 5] "delete").1.isErrorResponse = true
  ∧ (bulk_timesheet_actions envA
        [draftOn 1 70 800,
         { id := 5, employee := 2, project := 1, activityType := "dev",
           date := 70, hoursWorked := 800, description := some "work",
           status := .draft, submittedAt := none }]
        (fun _ => false) 1 [1, 5] "delete").2
      = [draftOn 1 70 800,
         { id := 5, employee := 2, project := 1, activityType := "dev",
           date := 70, hoursWorked := 800, description := some "work",
           status := .draft, submittedAt := none }] :=
  (bulk_owned_only envA
    [draftOn 1 70 800,
     { id := 5, employee := 2, project := 1, activityType := "dev",
       date := 70, hoursWorked := 800, description := some "work",
       status := .draft, submittedAt := none }]
    (fun _ => false) 1 [1, 5] "delete" (by decide)).1
    ⟨5, by decide, by decide⟩

/-- Claim C10: for a bulk delete whose ids pass the serializer and the
ownership check, exactly the owned Draft rows are deleted: the
response counts only them, every Submitted row in the set (and outside
it) survives unchanged, the deleted drafts are gone, and the batch is
an error ("No draft timesheets to delete") exactly when the resolved
set contains no Draft at all. -/
theorem bulk_delete_mixed (env : Env) (store : List Entry)
    (fails : Entry → Bool) (empId : Nat) (ids : List Nat)
    (hser : bulk_serializer_check store ids = .ok)
    (hown : ((bulk_owned store empId ids).length ≠ ids.length) = False) :
    ((bulk_owned store empId ids).filter
        (fun e => e.status == Status.draft) = [] →
      bulk_timesheet_actions env store fails empId ids "delete"
        = (.noDraftsToDelete, store)
      ∧ BulkResult.noDraftsToDelete.isErrorResponse = true)
  ∧ ((bulk_owned store empId ids).filter
        (fun e => e.status == Status.draft) ≠ [] →
      bulk_timesheet_actions env store fails empId ids "delete"
        = (.bulkDeleted ((bulk_owned store empId ids).filter
             (fun e => e.status == Status.draft)).length,
           store.filter (fun e => !(ids.contains e.id &&
             e.employee == empId && e.status == Status.draft)))
      ∧ (∀ x ∈ store, x.status = .submitted →
          x ∈ (bulk_timesheet_actions env store fails empId ids "delete").2)
      ∧ (BulkResult.bulkDeleted ((bulk_owned store empId ids).filter
           (fun e => e.status == Status.draft)).length).isErrorResponse
          = false) := by
  have hreduce : bulk_timesheet_actions env store fails empId ids "delete"
      = (if ((bulk_owned store empId ids).filter
            (fun e => e.status == Status.draft)).isEmpty then
           (.noDraftsToDelete, store)
         else
           (.bulkDeleted ((bulk_owned store empId ids).filter
              (fun e => e.status == Status.draft)).length,
            store.filter (fun e => !(ids.contains e.id &&
              e.employee == empId && e.status == Status.draft)))) := by
    unfold bulk_timesheet_actions
    rw [hser]
    dsimp only
    rw [if_neg (by rw [hown]; exact id)]
    rfl
  constructor
  · intro hempty
    have hie : ((bulk_owned store empId ids).filter
        (fun e => e.status == Status.draft)).isEmpty = true := by
      rw [hempty]; rfl
    rw [hreduce, if_pos hie]
    exact ⟨rfl, rfl⟩
  · intro hne
    have hie : ((bulk_owned store empId ids).filter
        (fun e => e.status == Status.draft)).isEmpty = false := by
      cases hd : (bulk_owned store empId ids).filter
          (fun e => e.status == Status.draft)
      · exact absurd hd hne
      · rfl
    rw [hreduce, if_neg (by rw [hie]; exact Bool.noConfusion)]
    refine ⟨rfl, ?_, rfl⟩
    intro x hx hxs
    refine List.mem_filter.mpr ⟨hx, ?_⟩
    have hcond : (ids.contains x.id && x.employee == empId &&
        x.status == Status.draft) = false := by
      have : (x.status == Status.draft) = false := by
        rw [hxs]; rfl
      rw [this, Bool.and_false]
    rw [hcond]
    rfl

/-- Witness for C10: a mixed owned set {draft id 1, submitted id 3};
delete removes only the draft, reports `deleted_count = 1`, and the
submitted row survives. -/
theorem bulk_delete_mixed_witness :
    bulk_timesheet_actions envA [draftOn 1 70 800, submittedOn 3 70 900]
        (fun _ => false) 1 [1, 3] "delete"
      = (.bulkDeleted 1, [submittedOn 3 70 900])
  ∧ submittedOn 3 70 900 ∈
      (bulk_timesheet_actions envA [draftOn 1 70 800, submittedOn 3 70 900]
        (fun _ => false) 1 [1, 3] "delete").2 := by
  have h := (bulk_delete_mixed envA [draftOn 1 70 800, submittedOn 3 70 900]
    (fun _ => false) 1 [1, 3] (by decide) (by decide)).2 (by decide)
  exact ⟨h.1.trans (by decide), h.2.1 (submittedOn 3 70 900) (by decide) rfl⟩

